import Mathlib

/-!
Shallow embedding of the SoftDesk authorization core
(src/softdesk/project/{models,permissions,views,serializers}.py).

Identities, projects and issues carry `Nat` identifiers; the database state
is a record of lists mirroring the Django tables. Each definition mirrors one
source function, named after it where Lean allows.
-/

namespace Softdesk

/-- Mirrors `Project` (models.py): id and `author` FK; routine fields omitted. -/
structure Project where
  id : Nat
  author : Nat
deriving DecidableEq, Repr

/-- Mirrors `Issue` (models.py): id, `project` FK, `author` FK, optional `assignee`. -/
structure Issue where
  id : Nat
  project_id : Nat
  author : Nat
  assignee : Option Nat
deriving DecidableEq, Repr

/-- Mirrors `Comment` (models.py): id, `issue` FK, `author` FK. -/
structure Comment where
  id : Nat
  issue_id : Nat
  author : Nat
deriving DecidableEq, Repr

/-- Mirrors `Contributor` (models.py): a (user, project) membership row. -/
structure Contributor where
  user : Nat
  project : Nat
deriving DecidableEq, Repr

/-- The database tables the authorization core reads and writes. -/
structure DB where
  projects : List Project
  issues : List Issue
  comments : List Comment
  contributors : List Contributor
deriving DecidableEq, Repr

/-- HTTP methods relevant to the permission class. -/
inductive Method
  | GET
  | POST
  | PATCH
  | DELETE
deriving DecidableEq, Repr

/-- `permissions.SAFE_METHODS` membership (only GET occurs in this API's reads). -/
def Method.isSafe : Method → Bool
  | .GET => true
  | _ => false

/-- The hierarchy level at which a NotFound (HTTP 404) is raised. -/
inductive Level
  | Project
  | Issue
  | Comment
deriving DecidableEq, Repr

/-- Outcome of `has_permission`: either a raised `NotFound` or a boolean
(False is surfaced as Forbidden / HTTP 403). -/
inductive PermOutcome
  | notFound (lvl : Level)
  | result (b : Bool)
deriving DecidableEq, Repr

/-- `Project.objects.filter(pk=pk).first()` — lookup of a project by primary key. -/
def findProject (db : DB) (pk : Nat) : Option Project :=
  db.projects.find? (fun p => p.id == pk)

/-- `Issue.objects.filter(pk=pk).first()` — lookup of an issue by primary key. -/
def findIssue (db : DB) (pk : Nat) : Option Issue :=
  db.issues.find? (fun i => i.id == pk)

/-- `Project.objects.filter(pk=project_pk).exists()` (permissions.py line 45). -/
def projectExists (db : DB) (ppk : Nat) : Bool :=
  db.projects.any (fun p => p.id == ppk)

/-- `Issue.objects.filter(pk=issue_pk, project_id=project_pk).exists()`
(permissions.py line 50): the issue must exist scoped to the project. -/
def issueExistsScoped (db : DB) (ipk ppk : Nat) : Bool :=
  db.issues.any (fun i => i.id == ipk && i.project_id == ppk)

/-- `Contributor.objects.filter(user=u, project=p).exists()` — the contributor
membership predicate used by the serializers. -/
def isContributorRel (db : DB) (u ppk : Nat) : Bool :=
  db.contributors.any (fun c => c.user == u && c.project == ppk)

/-- `Project.objects.filter(pk=project_pk, contributors__user=user).exists()`
(permissions.py lines 55-57): join of the project row with its contributors. -/
def roleCheckListCreate (db : DB) (ppk u : Nat) : Bool :=
  db.projects.any (fun p =>
    p.id == ppk && db.contributors.any (fun c => c.project == p.id && c.user == u))

/-- `ProjectPermission.has_permission` (permissions.py lines 26-60).
`user = none` models an unauthenticated request. `project_pk`/`issue_pk` are
the URL kwargs; `none` means the kwarg is absent from the route. -/
def has_permission (db : DB) (user : Option Nat) (method : Method)
    (project_pk issue_pk : Option Nat) : PermOutcome :=
  match user with
  | none => .result false
  | some u =>
    match project_pk with
    | none => .result true
    | some ppk =>
      if projectExists db ppk = false then
        .notFound .Project
      else
        match issue_pk with
        | some ipk =>
          if issueExistsScoped db ipk ppk = false then
            .notFound .Issue
          else if method.isSafe || method == .POST then
            .result (roleCheckListCreate db ppk u)
          else
            .result true
        | none =>
          if method.isSafe || method == .POST then
            .result (roleCheckListCreate db ppk u)
          else
            .result true

/-- An object reaching `has_object_permission`: a Project, Issue or Comment row. -/
inductive Obj
  | project (p : Project)
  | issue (i : Issue)
  | comment (c : Comment)
deriving DecidableEq, Repr

/-- `obj.author` — every object kind carries an author. -/
def objAuthor : Obj → Nat
  | .project p => p.author
  | .issue i => i.author
  | .comment c => c.author

/-- `ProjectPermission.get_project` (permissions.py lines 62-76): project from the
`project_pk` kwarg (`get_object_or_404`, hence `.error` on a missing project), else
from the object graph (`obj`, `obj.project`, or `obj.issue.project`). -/
def get_project (db : DB) (project_pk : Option Nat) (obj : Obj) :
    Except Level (Option Project) :=
  match project_pk with
  | some ppk =>
    match findProject db ppk with
    | some p => .ok (some p)
    | none => .error .Project
  | none =>
    match obj with
    | .project p => .ok (some p)
    | .issue i => .ok (findProject db i.project_id)
    | .comment c =>
      match findIssue db c.issue_id with
      | some i => .ok (findProject db i.project_id)
      | none => .ok none

/-- `ProjectPermission.has_object_permission` (permissions.py lines 78-92):
safe methods require contributor membership of the governing project, writes
require `obj.author == user`. -/
def has_object_permission (db : DB) (user : Option Nat) (method : Method)
    (project_pk : Option Nat) (obj : Obj) : Except Level Bool :=
  match get_project db project_pk obj with
  | .error l => .error l
  | .ok po =>
    match user, po with
    | some u, some project =>
      if method.isSafe then
        .ok (db.contributors.any (fun c => c.project == project.id && c.user == u))
      else
        .ok (objAuthor obj == u)
    | _, _ => .ok false

/-- Full decision for a detail route: DRF evaluates `has_permission` first
(raising 404s and denying list/create roles), then `has_object_permission`
on the resolved object. -/
def objectDecision (db : DB) (user : Option Nat) (method : Method)
    (project_pk issue_pk : Option Nat) (obj : Obj) : Except Level Bool :=
  match has_permission db user method project_pk issue_pk with
  | .notFound l => .error l
  | .result false => .ok false
  | .result true => has_object_permission db user method project_pk obj

/-- `CommentViewSet.get_queryset` lookup (views.py lines 116-125): a comment
scoped by `issue_id == ipk` and `issue__project_id == ppk` (join through the
comment's issue FK), then `pk == cpk`. -/
def commentLookup (db : DB) (cpk ipk ppk : Nat) : Option Comment :=
  db.comments.find? (fun c =>
    c.id == cpk && c.issue_id == ipk &&
      (match findIssue db c.issue_id with
       | some i => i.project_id == ppk
       | none => false))

/-- The chain of entities resolved from a request path. -/
structure Chain where
  project : Project
  issue : Option Issue
  comment : Option Comment
deriving DecidableEq, Repr

/-- The hierarchy resolution performed by the code: the existence checks of
`has_permission` (permissions.py lines 45-51) followed by the viewsets'
scoped queryset lookups (views.py). Fails fast at the outermost missing level. -/
def resolveHierarchy (db : DB) (ppk : Nat) (ipk cpk : Option Nat) :
    Except Level Chain :=
  match findProject db ppk with
  | none => .error .Project
  | some p =>
    match ipk with
    | none => .ok ⟨p, none, none⟩
    | some i =>
      match db.issues.find? (fun x => x.id == i && x.project_id == ppk) with
      | none => .error .Issue
      | some issue =>
        match cpk with
        | none => .ok ⟨p, some issue, none⟩
        | some c =>
          match commentLookup db c i ppk with
          | none => .error .Comment
          | some com => .ok ⟨p, some issue, some com⟩

/-- Validation / mutation-guard failure kinds: a 404 or a DRF `ValidationError`
(HTTP 400, distinct from Forbidden and NotFound). -/
inductive ValErr
  | notFound (lvl : Level)
  | invalid (msg : String)
deriving DecidableEq, Repr

/-- `IssueSerializer.validate` (serializers.py lines 143-167): resolve the
project (404 on missing), then reject a non-contributor assignee, then reject
a non-contributor acting user; each rejection is a `ValidationError`. -/
def issueValidate (db : DB) (u ppk : Nat) (assignee : Option Nat) :
    Except ValErr Unit :=
  match findProject db ppk with
  | none => .error (.notFound .Project)
  | some project =>
    match assignee with
    | some a =>
      if isContributorRel db a project.id = false then
        .error (.invalid "Assignee must be a project contributor.")
      else if isContributorRel db u project.id = false then
        .error (.invalid "You are not a contributor to this project.")
      else
        .ok ()
    | none =>
      if isContributorRel db u project.id = false then
        .error (.invalid "You are not a contributor to this project.")
      else
        .ok ()

/-- `CommentSerializer.validate` (serializers.py lines 60-81): resolve the issue
(`get_object_or_404(Issue, pk=issue_pk)`), then require the acting user to be a
contributor of the issue's project. -/
def commentValidate (db : DB) (u : Nat) (issue_pk : Option Nat) :
    Except ValErr Unit :=
  match issue_pk with
  | none => .error (.notFound .Issue)
  | some ipk =>
    match findIssue db ipk with
    | none => .error (.notFound .Issue)
    | some issue =>
      if isContributorRel db u issue.project_id = false then
        .error (.invalid "You cannot comment on this issue.")
      else
        .ok ()

/-- Client-supplied body of an issue create/update. The `author_field` models a
client-supplied `author` value: the serializer declares `author` read-only, so
the stored object never uses it. -/
structure IssueInput where
  assignee : Option Nat
  author_field : Option Nat
deriving DecidableEq, Repr

/-- Client-supplied body of a project create; `author_field` is discarded
(`ProjectSerializer.author` is read-only). -/
structure ProjectInput where
  author_field : Option Nat
deriving DecidableEq, Repr

/-- Client-supplied body of a contributor create; `user_field` is discarded
(`ContributorSerializer.user` is a `HiddenField` defaulting to the current user). -/
structure ContributorInput where
  user_field : Option Nat
  project : Nat
deriving DecidableEq, Repr

/-- `Contributor.objects.get_or_create(user=u, project=ppk)`
(views.py lines 70-73): insert the membership unless it already exists. -/
def addContributor (db : DB) (u ppk : Nat) : DB :=
  if isContributorRel db u ppk then db
  else { db with contributors := db.contributors ++ [⟨u, ppk⟩] }

/-- `ProjectViewSet.perform_create` (views.py lines 65-73): save the project with
`author=request.user` (ignoring any client-supplied author) and `get_or_create`
the author's own contributor membership. `nid` is the fresh primary key. -/
def createProject (db : DB) (u nid : Nat) (_inp : ProjectInput) : DB :=
  addContributor { db with projects := db.projects ++ [⟨nid, u⟩] } u nid

/-- `IssueViewSet.perform_create` plus serializer validation: validate, then
`get_object_or_404(Project, pk=project_pk)` and save with `author=request.user`
and `project=project`; the client's `author_field` is never stored. -/
def createIssue (db : DB) (u ppk nid : Nat) (inp : IssueInput) :
    Except ValErr DB :=
  match issueValidate db u ppk inp.assignee with
  | .error e => .error e
  | .ok _ =>
    match findProject db ppk with
    | none => .error (.notFound .Project)
    | some p =>
      .ok { db with issues := db.issues ++ [⟨nid, p.id, u, inp.assignee⟩] }

/-- An issue update (`ModelViewSet.update`): the serializer re-runs
`IssueSerializer.validate`, then the writable fields (here the assignee) are
applied to the stored row; `author` and `project` are read-only. -/
def updateIssue (db : DB) (u ppk ipk : Nat) (inp : IssueInput) :
    Except ValErr DB :=
  match issueValidate db u ppk inp.assignee with
  | .error e => .error e
  | .ok _ =>
    .ok { db with issues := db.issues.map (fun i =>
      if i.id == ipk && i.project_id == ppk then { i with assignee := inp.assignee } else i) }

/-- `CommentViewSet.perform_create` plus `CommentSerializer.validate`: validate,
look up the issue scoped to the project, save with `author=request.user`. -/
def createComment (db : DB) (u ppk ipk nid : Nat) : Except ValErr DB :=
  match commentValidate db u (some ipk) with
  | .error e => .error e
  | .ok _ =>
    match db.issues.find? (fun x => x.id == ipk && x.project_id == ppk) with
    | none => .error (.notFound .Issue)
    | some issue =>
      .ok { db with comments := db.comments ++ [⟨nid, issue.id, u⟩] }

/-- `ContributorViewSet.perform_create` plus `ContributorSerializer`: the stored
user is the requesting user (`HiddenField(CurrentUserDefault)` +
`serializer.save(user=request.user)`); the `UniqueTogetherValidator` rejects a
duplicate (user, project) pair with a `ValidationError`. -/
def contributorCreate (db : DB) (u : Nat) (inp : ContributorInput) :
    Except ValErr DB :=
  if db.contributors.any (fun c => c.user == u && c.project == inp.project) then
    .error (.invalid "You are already a contributor to this project.")
  else
    .ok { db with contributors := db.contributors ++ [⟨u, inp.project⟩] }

/-- `ContributorViewSet.get_queryset` (views.py lines 149-153): only the
requesting user's own memberships. -/
def contributorList (db : DB) (u : Nat) : List Contributor :=
  db.contributors.filter (fun c => c.user == u)

/-- Number of membership rows for a (user, project) pair. -/
def countPair (db : DB) (u ppk : Nat) : Nat :=
  (db.contributors.filter (fun c => c.user == u && c.project == ppk)).length

/-! Helper lemmas about the lookups. -/

theorem find?_project_id {db : DB} {ppk : Nat} {p : Project}
    (h : findProject db ppk = some p) : p.id = ppk := by
  have h' : db.projects.find? (fun q => q.id == ppk) = some p := h
  have := List.find?_some h'
  simpa using this

theorem mem_of_findProject {db : DB} {ppk : Nat} {p : Project}
    (h : findProject db ppk = some p) : p ∈ db.projects :=
  List.mem_of_find?_eq_some h

theorem projectExists_of_find {db : DB} {ppk : Nat} {p : Project}
    (h : findProject db ppk = some p) : projectExists db ppk = true := by
  unfold projectExists
  rw [List.any_eq_true]
  exact ⟨p, mem_of_findProject h, by simp [find?_project_id h]⟩

theorem issueExistsScoped_of_mem {db : DB} {i : Issue} (hm : i ∈ db.issues) :
    issueExistsScoped db i.id i.project_id = true := by
  unfold issueExistsScoped
  rw [List.any_eq_true]
  exact ⟨i, hm, by simp⟩

theorem contribAny_comm (l : List Contributor) (u pid : Nat) :
    (l.any fun c => c.project == pid && c.user == u) =
      (l.any fun c => c.user == u && c.project == pid) := by
  induction l with
  | nil => rfl
  | cons a t ih => simp [List.any_cons, ih, Bool.and_comm]

theorem roleCheck_eq {db : DB} {ppk : Nat} {p : Project} (u : Nat)
    (h : findProject db ppk = some p) :
    roleCheckListCreate db ppk u = isContributorRel db u ppk := by
  have hm := mem_of_findProject h
  have hid := find?_project_id h
  unfold roleCheckListCreate isContributorRel
  rw [Bool.eq_iff_iff]
  simp only [List.any_eq_true, Bool.and_eq_true, beq_iff_eq]
  constructor
  · rintro ⟨q, hq, hqid, c, hc, hcq, hcu⟩
    exact ⟨c, hc, hcu, by rw [hcq, hqid]⟩
  · rintro ⟨c, hc, hcu, hcp⟩
    exact ⟨p, hm, hid, c, hc, by rw [hcp, hid], hcu⟩

theorem has_permission_resolved_GET {db : DB} {ppk : Nat} {p : Project} (u : Nat)
    (hp : findProject db ppk = some p) :
    has_permission db (some u) .GET (some ppk) none
      = .result (isContributorRel db u ppk) := by
  unfold has_permission
  simp [projectExists_of_find hp, roleCheck_eq u hp, Method.isSafe]

theorem has_permission_resolved_GET_issue {db : DB} {ppk ipk : Nat} {p : Project}
    (u : Nat) (hp : findProject db ppk = some p)
    (hi : issueExistsScoped db ipk ppk = true) :
    has_permission db (some u) .GET (some ppk) (some ipk)
      = .result (isContributorRel db u ppk) := by
  unfold has_permission
  simp [projectExists_of_find hp, hi, roleCheck_eq u hp, Method.isSafe]

theorem has_permission_resolved_write {db : DB} {ppk : Nat} {p : Project}
    {m : Method} (u : Nat) (hm : m = .PATCH ∨ m = .DELETE)
    (hp : findProject db ppk = some p) :
    has_permission db (some u) m (some ppk) none = .result true := by
  unfold has_permission
  rcases hm with rfl | rfl <;>
    simp [projectExists_of_find hp, Method.isSafe]

theorem has_permission_resolved_write_issue {db : DB} {ppk ipk : Nat}
    {p : Project} {m : Method} (u : Nat) (hm : m = .PATCH ∨ m = .DELETE)
    (hp : findProject db ppk = some p)
    (hi : issueExistsScoped db ipk ppk = true) :
    has_permission db (some u) m (some ppk) (some ipk) = .result true := by
  unfold has_permission
  rcases hm with rfl | rfl <;>
    simp [projectExists_of_find hp, hi, Method.isSafe]

/-! Claim theorems. -/

/-- C5: for every resolved Project and authenticated actor, a write (PATCH or
DELETE) on the Project item is allowed iff the actor is the project's `author`;
a contributor who is not the author is denied. -/
theorem c5_project_write_author_only (db : DB) (u : Nat) (p : Project) :
    objectDecision db (some u) .PATCH none none (.project p) = .ok (p.author == u) ∧
    objectDecision db (some u) .DELETE none none (.project p) = .ok (p.author == u) ∧
    (isContributorRel db u p.id = true → p.author ≠ u →
      objectDecision db (some u) .PATCH none none (.project p) = .ok false) := by
  refine ⟨rfl, rfl, fun _ hne => ?_⟩
  have hb : (p.author == u) = false := by simpa using hne
  calc objectDecision db (some u) .PATCH none none (.project p)
      = .ok (p.author == u) := rfl
    _ = .ok false := by rw [hb]

/-- C5 witness: on a concrete state, a contributor who is not the author is
denied a project write. -/
theorem c5_project_write_author_only_witness :
    objectDecision
      { projects := [⟨0, 0⟩], issues := [], comments := [], contributors := [⟨1, 0⟩] }
      (some 1) .PATCH none none (.project ⟨0, 0⟩) = .ok false :=
  (c5_project_write_author_only
    { projects := [⟨0, 0⟩], issues := [], comments := [], contributors := [⟨1, 0⟩] }
    1 ⟨0, 0⟩).2.2 (by decide) (by decide)

/-- C4: for every resolved item (Project, Issue, or Comment) and authenticated
actor, a Read (GET) is allowed iff the actor is a contributor of the governing
Project. -/
theorem c4_read_iff_contributor (db : DB) (u : Nat) :
    (∀ p : Project,
      objectDecision db (some u) .GET none none (.project p)
        = .ok (isContributorRel db u p.id)) ∧
    (∀ ppk : Nat, ∀ p : Project, ∀ i : Issue,
      findProject db ppk = some p → i ∈ db.issues → i.project_id = ppk →
      objectDecision db (some u) .GET (some ppk) none (.issue i)
        = .ok (isContributorRel db u ppk)) ∧
    (∀ ppk ipk : Nat, ∀ p : Project, ∀ i : Issue, ∀ c : Comment,
      findProject db ppk = some p → i ∈ db.issues → i.id = ipk →
      i.project_id = ppk → c.issue_id = ipk →
      objectDecision db (some u) .GET (some ppk) (some ipk) (.comment c)
        = .ok (isContributorRel db u ppk)) := by
  refine ⟨fun p => ?_, fun ppk p i hp hi hproj => ?_, fun ppk ipk p i c hp hi hid hproj _ => ?_⟩
  · calc objectDecision db (some u) .GET none none (.project p)
        = .ok (db.contributors.any fun x => x.project == p.id && x.user == u) := rfl
      _ = .ok (isContributorRel db u p.id) := by rw [contribAny_comm]; rfl
  · have hperm := has_permission_resolved_GET u hp
    have hobj : has_object_permission db (some u) .GET (some ppk) (.issue i)
        = .ok (isContributorRel db u ppk) := by
      unfold has_object_permission get_project
      dsimp only
      rw [hp]
      simp [Method.isSafe, contribAny_comm, find?_project_id hp, isContributorRel]
    cases hb : isContributorRel db u ppk with
    | false =>
      unfold objectDecision
      rw [hperm, hb]
    | true =>
      unfold objectDecision
      rw [hperm, hb]
      rw [hobj, hb]
  · have hscope : issueExistsScoped db ipk ppk = true := by
      have := issueExistsScoped_of_mem hi
      rwa [hid, hproj] at this
    have hperm := has_permission_resolved_GET_issue u hp hscope
    have hobj : has_object_permission db (some u) .GET (some ppk) (.comment c)
        = .ok (isContributorRel db u ppk) := by
      unfold has_object_permission get_project
      dsimp only
      rw [hp]
      simp [Method.isSafe, contribAny_comm, find?_project_id hp, isContributorRel]
    cases hb : isContributorRel db u ppk with
    | false =>
      unfold objectDecision
      rw [hperm, hb]
    | true =>
      unfold objectDecision
      rw [hperm, hb]
      rw [hobj, hb]

/-- C4 witness: on a concrete state, a contributor reads an issue of the
project and the decision is Allow. -/
theorem c4_read_iff_contributor_witness :
    objectDecision
      { projects := [⟨0, 3⟩], issues := [⟨1, 0, 3, none⟩], comments := [],
        contributors := [⟨2, 0⟩] }
      (some 2) .GET (some 0) none (.issue ⟨1, 0, 3, none⟩) = .ok true :=
  (c4_read_iff_contributor
    { projects := [⟨0, 3⟩], issues := [⟨1, 0, 3, none⟩], comments := [],
      contributors := [⟨2, 0⟩] } 2).2.1
    0 ⟨0, 3⟩ ⟨1, 0, 3, none⟩ rfl (by decide) rfl

/-- C1 counterexample: a user who authored an issue but is not a contributor of
its project is still allowed to write it, so the decision is not
"Allow iff is_contributor AND is_author". -/
theorem c1_counterexample :
    objectDecision
      { projects := [⟨0, 0⟩], issues := [⟨1, 0, 5, none⟩], comments := [],
        contributors := [⟨0, 0⟩] }
      (some 5) .PATCH (some 0) none (.issue ⟨1, 0, 5, none⟩) = .ok true ∧
    isContributorRel
      { projects := [⟨0, 0⟩], issues := [⟨1, 0, 5, none⟩], comments := [],
        contributors := [⟨0, 0⟩] } 5 0 = false :=
  ⟨rfl, rfl⟩

/-- C1 amended: for every nested item (Issue or Comment) that resolves, a write
(PATCH or DELETE) is allowed iff the actor is the author of that specific item;
contributor-ship of the ancestor project is not additionally required. -/
theorem c1_nested_write_iff_author (db : DB) (u : Nat) :
    (∀ ppk : Nat, ∀ p : Project, ∀ i : Issue, ∀ m : Method,
      m = .PATCH ∨ m = .DELETE →
      findProject db ppk = some p → i ∈ db.issues → i.project_id = ppk →
      objectDecision db (some u) m (some ppk) none (.issue i) = .ok (i.author == u)) ∧
    (∀ ppk ipk : Nat, ∀ p : Project, ∀ i : Issue, ∀ c : Comment, ∀ m : Method,
      m = .PATCH ∨ m = .DELETE →
      findProject db ppk = some p → i ∈ db.issues → i.id = ipk →
      i.project_id = ppk → c.issue_id = ipk →
      objectDecision db (some u) m (some ppk) (some ipk) (.comment c)
        = .ok (c.author == u)) := by
  constructor
  · intro ppk p i m hm hp hi hproj
    have hperm := has_permission_resolved_write u hm hp
    unfold objectDecision
    rw [hperm]
    unfold has_object_permission get_project
    dsimp only
    rw [hp]
    rcases hm with rfl | rfl <;> simp [Method.isSafe, objAuthor]
  · intro ppk ipk p i c m hm hp hi hid hproj _
    have hscope : issueExistsScoped db ipk ppk = true := by
      have := issueExistsScoped_of_mem hi
      rwa [hid, hproj] at this
    have hperm := has_permission_resolved_write_issue u hm hp hscope
    unfold objectDecision
    rw [hperm]
    unfold has_object_permission get_project
    dsimp only
    rw [hp]
    rcases hm with rfl | rfl <;> simp [Method.isSafe, objAuthor]

/-- C1 amended witness: on a concrete state, the issue's author (who is also a
contributor there) is allowed to PATCH the issue. -/
theorem c1_nested_write_iff_author_witness :
    objectDecision
      { projects := [⟨0, 0⟩], issues := [⟨1, 0, 5, none⟩], comments := [],
        contributors := [⟨0, 0⟩, ⟨5, 0⟩] }
      (some 5) .PATCH (some 0) none (.issue ⟨1, 0, 5, none⟩) = .ok true :=
  (c1_nested_write_iff_author
    { projects := [⟨0, 0⟩], issues := [⟨1, 0, 5, none⟩], comments := [],
      contributors := [⟨0, 0⟩, ⟨5, 0⟩] } 5).1
    0 ⟨0, 0⟩ ⟨1, 0, 5, none⟩ .PATCH (Or.inl rfl) rfl (by decide) rfl

/-- C2: for every authenticated actor and every method, a broken chain yields
NotFound before any role check runs: a missing project gives NotFound at the
Project level, a project/issue mismatch gives NotFound at the Issue level, and
in neither case is the outcome the Forbidden result — this also propagates
through the full object decision. -/
theorem c2_notfound_precedes_forbidden (db : DB) (u : Nat) (m : Method) :
    (∀ ppk : Nat, ∀ ipk : Option Nat, projectExists db ppk = false →
      has_permission db (some u) m (some ppk) ipk = .notFound .Project ∧
      has_permission db (some u) m (some ppk) ipk ≠ .result false) ∧
    (∀ ppk ipk : Nat, projectExists db ppk = true →
      issueExistsScoped db ipk ppk = false →
      has_permission db (some u) m (some ppk) (some ipk) = .notFound .Issue ∧
      has_permission db (some u) m (some ppk) (some ipk) ≠ .result false) ∧
    (∀ ppk : Nat, ∀ ipk : Option Nat, ∀ obj : Obj, projectExists db ppk = false →
      objectDecision db (some u) m (some ppk) ipk obj = .error .Project) := by
  refine ⟨fun ppk ipk hex => ?_, fun ppk ipk hex hscope => ?_, fun ppk ipk obj hex => ?_⟩
  · have h : has_permission db (some u) m (some ppk) ipk = .notFound .Project := by
      unfold has_permission
      simp [hex]
    exact ⟨h, by rw [h]; simp⟩
  · have h : has_permission db (some u) m (some ppk) (some ipk) = .notFound .Issue := by
      unfold has_permission
      simp [hex, hscope]
    exact ⟨h, by rw [h]; simp⟩
  · have h : has_permission db (some u) m (some ppk) ipk = .notFound .Project := by
      unfold has_permission
      simp [hex]
    unfold objectDecision
    rw [h]

/-- C2 witness: with an empty database, a GET under a missing project yields
NotFound at the Project level, not Forbidden, and the object decision errors. -/
theorem c2_notfound_precedes_forbidden_witness :
    has_permission ⟨[], [], [], []⟩ (some 1) .GET (some 0) none
      = .notFound .Project ∧
    has_permission ⟨[], [], [], []⟩ (some 1) .GET (some 0) none ≠ .result false ∧
    objectDecision ⟨[], [], [], []⟩ (some 1) .GET (some 0) none (.project ⟨0, 1⟩)
      = .error .Project := by
  have h := c2_notfound_precedes_forbidden ⟨[], [], [], []⟩ 1 .GET
  exact ⟨(h.1 0 none (by decide)).1, (h.1 0 none (by decide)).2,
    h.2.2 0 none (.project ⟨0, 1⟩) (by decide)⟩

/-- C3: a child identifier that names an existing entity under a different
parent than the path claims resolves to NotFound at that child's level: an
issue of a different project gives NotFound at the Issue level (never at
Comment), and a comment of a different issue gives NotFound at the Comment
level. -/
theorem c3_mismatch_notfound_at_child_level (db : DB) :
    (∀ ppk ipk : Nat, ∀ cpk : Option Nat, ∀ p : Project, ∀ i : Issue,
      findProject db ppk = some p → i ∈ db.issues → i.id = ipk →
      i.project_id ≠ ppk → (∀ j ∈ db.issues, j.id = ipk → j = i) →
      resolveHierarchy db ppk (some ipk) cpk = .error .Issue ∧
      resolveHierarchy db ppk (some ipk) cpk ≠ .error .Comment) ∧
    (∀ ppk ipk cpk : Nat, ∀ p : Project, ∀ i : Issue, ∀ c : Comment,
      findProject db ppk = some p → i ∈ db.issues → i.id = ipk →
      i.project_id = ppk → c ∈ db.comments → c.id = cpk → c.issue_id ≠ ipk →
      (∀ d ∈ db.comments, d.id = cpk → d = c) →
      resolveHierarchy db ppk (some ipk) (some cpk) = .error .Comment) := by
  constructor
  · intro ppk ipk cpk p i hp hi hid hne huniq
    have hfind : db.issues.find? (fun x => x.id == ipk && x.project_id == ppk) = none := by
      rw [List.find?_eq_none]
      intro j hj hpred
      rw [Bool.and_eq_true, beq_iff_eq, beq_iff_eq] at hpred
      exact hne (by rw [← huniq j hj hpred.1]; exact hpred.2)
    have h : resolveHierarchy db ppk (some ipk) cpk = .error .Issue := by
      unfold resolveHierarchy
      rw [hp]
      dsimp only
      rw [hfind]
    exact ⟨h, by rw [h]; simp⟩
  · intro ppk ipk cpk p i c hp hi hid hproj hc hcid hcne huniqc
    have hjfind : ∃ j, db.issues.find? (fun x => x.id == ipk && x.project_id == ppk) = some j := by
      cases hfi : db.issues.find? (fun x => x.id == ipk && x.project_id == ppk) with
      | some j => exact ⟨j, rfl⟩
      | none =>
        rw [List.find?_eq_none] at hfi
        exact absurd (by simp [hid, hproj]) (hfi i hi)
    obtain ⟨j, hj⟩ := hjfind
    have hcfind : commentLookup db cpk ipk ppk = none := by
      unfold commentLookup
      rw [List.find?_eq_none]
      intro d hd hpred
      simp only [Bool.and_eq_true, beq_iff_eq] at hpred
      exact hcne (by rw [← huniqc d hd hpred.1.1]; exact hpred.1.2)
    unfold resolveHierarchy
    rw [hp]
    dsimp only
    rw [hj]
    dsimp only
    rw [hcfind]

/-- C3 witness: an issue stored under project 0 but addressed under project 7
resolves to NotFound at the Issue level; a comment of issue 1 addressed under
issue 9 resolves to NotFound at the Comment level. -/
theorem c3_mismatch_notfound_at_child_level_witness :
    resolveHierarchy
      { projects := [⟨0, 0⟩, ⟨7, 0⟩], issues := [⟨1, 0, 0, none⟩],
        comments := [⟨4, 1, 0⟩], contributors := [] }
      7 (some 1) (some 4) = .error .Issue ∧
    resolveHierarchy
      { projects := [⟨0, 0⟩, ⟨7, 0⟩], issues := [⟨1, 0, 0, none⟩, ⟨9, 0, 0, none⟩],
        comments := [⟨4, 1, 0⟩], contributors := [] }
      0 (some 9) (some 4) = .error .Comment := by
  constructor
  · exact ((c3_mismatch_notfound_at_child_level
      { projects := [⟨0, 0⟩, ⟨7, 0⟩], issues := [⟨1, 0, 0, none⟩],
        comments := [⟨4, 1, 0⟩], contributors := [] }).1
      7 1 (some 4) ⟨7, 0⟩ ⟨1, 0, 0, none⟩ rfl (by decide) rfl (by decide) (by decide)).1
  · exact (c3_mismatch_notfound_at_child_level
      { projects := [⟨0, 0⟩, ⟨7, 0⟩], issues := [⟨1, 0, 0, none⟩, ⟨9, 0, 0, none⟩],
        comments := [⟨4, 1, 0⟩], contributors := [] }).2
      0 9 4 ⟨0, 0⟩ ⟨9, 0, 0, none⟩ ⟨4, 1, 0⟩ rfl (by decide) rfl rfl (by decide)
      rfl (by decide) (by decide)

/-- C6: on a resolved nested collection route, List (GET) and Create (POST)
reach the same branch of `has_permission` and hence the very same contributor
predicate: the two outcomes are equal, Create is allowed iff the actor is a
contributor of the ancestor project, and the comment-create serializer guard
agrees with that predicate. -/
theorem c6_nested_list_create_same_predicate (db : DB) (u ppk : Nat)
    (ipk2 : Option Nat) (p : Project) (hp : findProject db ppk = some p)
    (hi : ∀ ipk : Nat, ipk2 = some ipk → issueExistsScoped db ipk ppk = true) :
    has_permission db (some u) .GET (some ppk) ipk2
      = has_permission db (some u) .POST (some ppk) ipk2 ∧
    (has_permission db (some u) .POST (some ppk) ipk2 = .result true ↔
      isContributorRel db u ppk = true) ∧
    (∀ ipk : Nat, ∀ i : Issue, ipk2 = some ipk → findIssue db ipk = some i →
      i.project_id = ppk →
      (commentValidate db u (some ipk) = .ok () ↔ isContributorRel db u ppk = true)) := by
  have hG : has_permission db (some u) .GET (some ppk) ipk2
      = .result (isContributorRel db u ppk) := by
    cases ipk2 with
    | none => exact has_permission_resolved_GET u hp
    | some ipk => exact has_permission_resolved_GET_issue u hp (hi ipk rfl)
  have hP : has_permission db (some u) .POST (some ppk) ipk2
      = .result (isContributorRel db u ppk) := by
    cases ipk2 with
    | none =>
      unfold has_permission
      simp [projectExists_of_find hp, roleCheck_eq u hp, Method.isSafe]
    | some ipk =>
      unfold has_permission
      simp [projectExists_of_find hp, hi ipk rfl, roleCheck_eq u hp, Method.isSafe]
  refine ⟨hG.trans hP.symm, by rw [hP]; simp, fun ipk i _ hfi hproj => ?_⟩
  unfold commentValidate
  dsimp only
  rw [hfi]
  dsimp only
  rw [hproj]
  cases hb : isContributorRel db u ppk <;> simp [hb]

/-- C6 witness: on a concrete state with contributor 2, List and Create on the
issues collection of project 0 agree and Create is allowed. -/
theorem c6_nested_list_create_same_predicate_witness :
    has_permission
        { projects := [⟨0, 1⟩], issues := [], comments := [], contributors := [⟨2, 0⟩] }
        (some 2) .GET (some 0) none
      = has_permission
        { projects := [⟨0, 1⟩], issues := [], comments := [], contributors := [⟨2, 0⟩] }
        (some 2) .POST (some 0) none ∧
    has_permission
        { projects := [⟨0, 1⟩], issues := [], comments := [], contributors := [⟨2, 0⟩] }
        (some 2) .POST (some 0) none = .result true := by
  have h := c6_nested_list_create_same_predicate
    { projects := [⟨0, 1⟩], issues := [], comments := [], contributors := [⟨2, 0⟩] }
    2 0 none ⟨0, 1⟩ rfl (fun ipk h => nomatch h)
  exact ⟨h.1, h.2.1.mpr (by decide)⟩

/-- C7: an issue create or update that supplies a non-contributor assignee is
rejected with the structured "invalid relationship" validation error, which is
distinct from every NotFound level; and whenever a create or update with a
supplied assignee succeeds, the assignee really was a contributor then. -/
theorem c7_assignee_contributor_checked (db : DB) (u ppk a nid ipk : Nat)
    (inp : IssueInput) (p : Project) (hp : findProject db ppk = some p)
    (ha : inp.assignee = some a) :
    (isContributorRel db a ppk = false →
      createIssue db u ppk nid inp
        = .error (.invalid "Assignee must be a project contributor.") ∧
      updateIssue db u ppk ipk inp
        = .error (.invalid "Assignee must be a project contributor.") ∧
      ∀ l : Level, (ValErr.invalid "Assignee must be a project contributor.")
        ≠ ValErr.notFound l) ∧
    (∀ db2 : DB, createIssue db u ppk nid inp = .ok db2 →
      isContributorRel db a ppk = true) ∧
    (∀ db2 : DB, updateIssue db u ppk ipk inp = .ok db2 →
      isContributorRel db a ppk = true) := by
  have hid := find?_project_id hp
  have hval : isContributorRel db a ppk = false →
      issueValidate db u ppk (some a)
        = .error (.invalid "Assignee must be a project contributor.") := by
    intro hb
    unfold issueValidate
    rw [hp]
    dsimp only
    rw [hid, hb]
    simp
  refine ⟨fun hb => ⟨?_, ?_, fun l h => nomatch h⟩, fun db2 hok => ?_, fun db2 hok => ?_⟩
  · unfold createIssue
    rw [ha, hval hb]
  · unfold updateIssue
    rw [ha, hval hb]
  · cases hx : isContributorRel db a ppk with
    | true => rfl
    | false =>
      unfold createIssue at hok
      rw [ha, hval hx] at hok
      exact nomatch hok
  · cases hx : isContributorRel db a ppk with
    | true => rfl
    | false =>
      unfold updateIssue at hok
      rw [ha, hval hx] at hok
      exact nomatch hok

/-- C7 witness: assigning a non-contributor (user 2) on create is rejected with
the invalid-relationship validation error. -/
theorem c7_assignee_contributor_checked_witness :
    createIssue
      { projects := [⟨0, 1⟩], issues := [], comments := [], contributors := [⟨1, 0⟩] }
      1 0 10 ⟨some 2, none⟩
      = .error (.invalid "Assignee must be a project contributor.") :=
  ((c7_assignee_contributor_checked
    { projects := [⟨0, 1⟩], issues := [], comments := [], contributors := [⟨1, 0⟩] }
    1 0 2 10 0 ⟨some 2, none⟩ ⟨0, 1⟩ rfl rfl).1 (by decide)).1

/-- C8: stored authors come only from the acting identity: creating a Project,
Issue or Comment stores `author = actor` whatever `author_field` the client
supplied, and the write check on the stored object compares the stored author
with the requester, independent of any request content. -/
theorem c8_author_from_actor_only (db : DB) (u v nid ppk ipk : Nat)
    (pinp : ProjectInput) (iinp : IssueInput) :
    ((createProject db u nid pinp).projects = db.projects ++ [⟨nid, u⟩]) ∧
    (∀ db2 : DB, createIssue db u ppk nid iinp = .ok db2 →
      db2.issues.map Issue.author = db.issues.map Issue.author ++ [u]) ∧
    (∀ db2 : DB, createComment db u ppk ipk nid = .ok db2 →
      db2.comments.map Comment.author = db.comments.map Comment.author ++ [u]) ∧
    (∀ db0 : DB, objectDecision db0 (some v) .PATCH none none (.project ⟨nid, u⟩)
      = .ok (u == v)) := by
  refine ⟨?_, fun db2 hok => ?_, fun db2 hok => ?_, fun db0 => rfl⟩
  · unfold createProject addContributor
    split <;> rfl
  · unfold createIssue at hok
    cases hv : issueValidate db u ppk iinp.assignee with
    | error e => rw [hv] at hok; exact nomatch hok
    | ok w =>
      rw [hv] at hok
      dsimp only at hok
      cases hf : findProject db ppk with
      | none => rw [hf] at hok; exact nomatch hok
      | some p =>
        rw [hf] at hok
        dsimp only at hok
        cases hok
        simp
  · unfold createComment at hok
    cases hv : commentValidate db u (some ipk) with
    | error e => rw [hv] at hok; exact nomatch hok
    | ok w =>
      rw [hv] at hok
      dsimp only at hok
      cases hf : db.issues.find? (fun x => x.id == ipk && x.project_id == ppk) with
      | none => rw [hf] at hok; exact nomatch hok
      | some issue =>
        rw [hf] at hok
        dsimp only at hok
        cases hok
        simp

/-- C8 witness: a concrete issue create by user 1 (whose body carries
`author_field = 9`) stores author 1. -/
theorem c8_author_from_actor_only_witness :
    ({ projects := [⟨0, 1⟩], issues := [⟨5, 0, 1, none⟩], comments := [],
       contributors := [⟨1, 0⟩] } : DB).issues.map Issue.author
      = ({ projects := [⟨0, 1⟩], issues := [], comments := [],
           contributors := [⟨1, 0⟩] } : DB).issues.map Issue.author ++ [1] :=
  (c8_author_from_actor_only
    { projects := [⟨0, 1⟩], issues := [], comments := [], contributors := [⟨1, 0⟩] }
    1 0 5 0 0 ⟨none⟩ ⟨none, some 9⟩).2.1
    { projects := [⟨0, 1⟩], issues := [⟨5, 0, 1, none⟩], comments := [],
      contributors := [⟨1, 0⟩] } rfl

theorem isContributorRel_addContributor (db : DB) (u ppk : Nat) :
    isContributorRel (addContributor db u ppk) u ppk = true := by
  unfold addContributor
  cases hb : isContributorRel db u ppk with
  | true => simpa using hb
  | false =>
    simp only [Bool.false_eq_true, if_false]
    unfold isContributorRel
    simp [List.any_append]

theorem addContributor_idem (db : DB) (u ppk : Nat) :
    addContributor (addContributor db u ppk) u ppk = addContributor db u ppk := by
  show (if isContributorRel (addContributor db u ppk) u ppk then addContributor db u ppk
    else { addContributor db u ppk with
      contributors := (addContributor db u ppk).contributors ++ [⟨u, ppk⟩] })
    = addContributor db u ppk
  rw [isContributorRel_addContributor]
  simp

theorem countPair_pos_of_isContributorRel {db : DB} {u ppk : Nat}
    (h : isContributorRel db u ppk = true) : 0 < countPair db u ppk := by
  unfold isContributorRel at h
  rw [List.any_eq_true] at h
  obtain ⟨c, hc, hcp⟩ := h
  unfold countPair
  rw [List.length_pos]
  intro hnil
  rw [List.filter_eq_nil_iff] at hnil
  exact hnil c hc hcp

theorem countPair_eq_zero_of_not {db : DB} {u ppk : Nat}
    (h : isContributorRel db u ppk = false) : countPair db u ppk = 0 := by
  unfold isContributorRel at h
  unfold countPair
  rw [List.length_eq_zero, List.filter_eq_nil_iff]
  intro c hc hcp
  rw [List.any_eq_false] at h
  exact h c hc hcp

/-- C9: AddContributor establishes the membership immediately and is
idempotent; under the uniqueness invariant the row count for the pair is
exactly 1 after an add; project creation auto-adds its author as contributor;
and the explicit serializer path rejects a duplicate pair. -/
theorem c9_addcontributor_idempotent (db : DB) (u ppk nid x : Nat)
    (pinp : ProjectInput) (h1 : countPair db u ppk ≤ 1) :
    isContributorRel (addContributor db u ppk) u ppk = true ∧
    addContributor (addContributor db u ppk) u ppk = addContributor db u ppk ∧
    countPair (addContributor db u ppk) u ppk = 1 ∧
    isContributorRel (createProject db u nid pinp) u nid = true ∧
    (isContributorRel db u ppk = true →
      contributorCreate db u ⟨some x, ppk⟩
        = .error (.invalid "You are already a contributor to this project.")) := by
  refine ⟨isContributorRel_addContributor db u ppk, addContributor_idem db u ppk, ?_,
    isContributorRel_addContributor _ u nid, fun hdup => ?_⟩
  · unfold addContributor
    cases hb : isContributorRel db u ppk with
    | true =>
      simp only [if_true]
      have := countPair_pos_of_isContributorRel hb
      omega
    | false =>
      simp only [Bool.false_eq_true, if_false]
      have hz := countPair_eq_zero_of_not hb
      unfold countPair at hz ⊢
      simp [List.filter_append, List.length_append, hz]
  · unfold contributorCreate
    have : (db.contributors.any fun c => c.user == u && c.project == ppk) = true := hdup
    simp [this]

/-- C9 witness: adding user 1 to project 0 in the empty state yields the
membership with count exactly 1, and re-adding changes nothing. -/
theorem c9_addcontributor_idempotent_witness :
    isContributorRel (addContributor ⟨[], [], [], []⟩ 1 0) 1 0 = true ∧
    addContributor (addContributor ⟨[], [], [], []⟩ 1 0) 1 0
      = addContributor ⟨[], [], [], []⟩ 1 0 ∧
    countPair (addContributor ⟨[], [], [], []⟩ 1 0) 1 0 = 1 := by
  have h := c9_addcontributor_idempotent ⟨[], [], [], []⟩ 1 0 3 7 ⟨none⟩ (by decide)
  exact ⟨h.1, h.2.1, h.2.2.1⟩

/-- C10: an explicit contributor create stores the requesting identity itself,
ignoring the client-supplied user value, so an actor can only ever add themself;
and the contributor list endpoint returns only the requester's own rows. -/
theorem c10_contributor_self_only (db : DB) (u p x y : Nat) (inp : ContributorInput) :
    contributorCreate db u ⟨some x, p⟩ = contributorCreate db u ⟨some y, p⟩ ∧
    (∀ db2 : DB, contributorCreate db u inp = .ok db2 →
      db2.contributors = db.contributors ++ [⟨u, inp.project⟩]) ∧
    (∀ c ∈ contributorList db u, c.user = u) := by
  refine ⟨rfl, fun db2 hok => ?_, fun c hc => ?_⟩
  · unfold contributorCreate at hok
    cases hb : (db.contributors.any fun c => c.user == u && c.project == inp.project) with
    | true => rw [hb] at hok; exact nomatch hok
    | false =>
      rw [hb] at hok
      simp only [Bool.false_eq_true, if_false] at hok
      cases hok
      rfl
  · unfold contributorList at hc
    rw [List.mem_filter] at hc
    simpa using hc.2

/-- C10 witness: user 3 creating a contributor row with a body claiming user 9
stores the row for user 3. -/
theorem c10_contributor_self_only_witness :
    ({ projects := [], issues := [], comments := [],
       contributors := [⟨3, 0⟩] } : DB).contributors
      = ([] : List Contributor) ++ [⟨3, 0⟩] :=
  (c10_contributor_self_only ⟨[], [], [], []⟩ 3 0 9 9 ⟨some 9, 0⟩).2.1
    { projects := [], issues := [], comments := [], contributors := [⟨3, 0⟩] } rfl

end Softdesk
